import Mathlib

/-!
Verification of the Telegram whitelist bot (`telegram_whitelist_bot.py`).

The development shallowly embeds the core of the script:

* the Solana address validator `is_valid_wallet` (regex
  `^[1-9A-HJ-NP-Za-km-z]{32,44}$` applied to the whitespace-stripped input);
* the SQLite-backed wallet store: table `whitelist` keyed by `tg_id`
  (`init_db`, `set_wallet`, `get_wallet`, `export_csv`);
* the conversation handlers `whitelist_entry`, `receive_address`,
  `editwallet`, `export_cmd` and the `ADMIN_IDS` configuration parse.

The SQLite table is modelled as a list of rows; the `INSERT ... ON
CONFLICT(tg_id) DO UPDATE` upsert branches on whether a row with the key
is present.  Conversation state is modelled explicitly: python-telegram-bot
keeps the conversation in its previous state when a handler raises, which
the embedding records by letting a turn return `none` as its next state.
-/

/-- Characters removed by the Python `str.strip()` used on inbound text:
the Unicode whitespace set of `str.isspace`. -/
def pyIsSpace (c : Char) : Bool :=
  c == ' ' || c == '\t' || c == '\n' || c == '\r' || c == '\x0b' || c == '\x0c' ||
  c == '\x1c' || c == '\x1d' || c == '\x1e' || c == '\x1f' || c == '\x85' || c == '\xa0' ||
  c == '\u1680' || c == '\u2000' || c == '\u2001' || c == '\u2002' || c == '\u2003' ||
  c == '\u2004' || c == '\u2005' || c == '\u2006' || c == '\u2007' || c == '\u2008' ||
  c == '\u2009' || c == '\u200a' || c == '\u2028' || c == '\u2029' || c == '\u202f' ||
  c == '\u205f' || c == '\u3000'

/-- Model of `str.strip()` on the character list of a string: drop whitespace
from the front, then from the back. -/
def stripList (l : List Char) : List Char :=
  ((l.dropWhile pyIsSpace).reverse.dropWhile pyIsSpace).reverse

/-- Model of `str.strip()` as a string-to-string function. -/
def pyStrip (s : String) : String :=
  ⟨stripList s.data⟩

/-- Membership in the character class `[1-9A-HJ-NP-Za-km-z]` of
`SOLANA_RE`. -/
def isBase58Char (c : Char) : Bool :=
  (decide ('1' ≤ c) && decide (c ≤ '9')) ||
  (decide ('A' ≤ c) && decide (c ≤ 'H')) ||
  (decide ('J' ≤ c) && decide (c ≤ 'N')) ||
  (decide ('P' ≤ c) && decide (c ≤ 'Z')) ||
  (decide ('a' ≤ c) && decide (c ≤ 'k')) ||
  (decide ('m' ≤ c) && decide (c ≤ 'z'))

/-- Model of `is_valid_wallet`: strip the candidate, then take a full
(anchored) match of `SOLANA_RE`, i.e. 32 to 44 characters, all in the class. -/
def is_valid_wallet (addr : String) : Bool :=
  let t := stripList addr.data
  decide (32 ≤ t.length) && decide (t.length ≤ 44) && t.all isBase58Char

/-- One row of the `whitelist` table.  `username` and `display_name` are
nullable TEXT columns. -/
structure WalletRecord where
  tg_id : Int
  username : Option String
  display_name : Option String
  wallet : String
  updated_at : String
  deriving DecidableEq, Repr

/-- Model of `init_db`: the freshly created `whitelist` table is empty. -/
def init_db : List WalletRecord :=
  []

/-- Model of `set_wallet`: `INSERT ... ON CONFLICT(tg_id) DO UPDATE` — if a row
with the key exists, replace its `wallet`, `username`, `display_name` and
`updated_at`; otherwise append a fresh row.  `now` stands for
`datetime.utcnow().isoformat()` taken at the call. -/
def set_wallet (db : List WalletRecord) (tg_id : Int) (username display_name : Option String)
    (wallet : String) (now : String) : List WalletRecord :=
  if db.any (fun r => r.tg_id == tg_id) then
    db.map (fun r =>
      if r.tg_id == tg_id then
        { tg_id := r.tg_id, username := username, display_name := display_name,
          wallet := wallet, updated_at := now }
      else r)
  else
    db ++ [{ tg_id := tg_id, username := username, display_name := display_name,
             wallet := wallet, updated_at := now }]

/-- Model of `get_wallet`: `SELECT wallet, updated_at FROM whitelist WHERE
tg_id = ?`, returning `(None, None)` on a miss. -/
def get_wallet (db : List WalletRecord) (tg_id : Int) : Option String × Option String :=
  match db.find? (fun r => r.tg_id == tg_id) with
  | some r => (some r.wallet, some r.updated_at)
  | none => (none, none)

/-- The order used by `ORDER BY updated_at DESC`: later timestamp first. -/
def updatedDesc (a b : WalletRecord) : Prop :=
  b.updated_at ≤ a.updated_at

instance : DecidableRel updatedDesc := fun a b =>
  inferInstanceAs (Decidable (b.updated_at ≤ a.updated_at))

instance : IsTotal WalletRecord updatedDesc :=
  ⟨fun a b => (le_total b.updated_at a.updated_at).elim Or.inl Or.inr⟩

instance : IsTrans WalletRecord updatedDesc :=
  ⟨fun _ _ _ h1 h2 => le_trans h2 h1⟩

/-- The row order produced by `ORDER BY updated_at DESC` (deterministic on
ties, as the spec allows). -/
def orderByUpdatedAtDesc (db : List WalletRecord) : List WalletRecord :=
  List.insertionSort updatedDesc db

/-- How `csv.writer` renders a nullable TEXT column: `None` becomes the
empty field. -/
def csvField : Option String → String
  | none => ""
  | some s => s

/-- One CSV data row, in the column order of the `SELECT`. -/
def rowToCsv (r : WalletRecord) : List String :=
  [toString r.tg_id, csvField r.username, csvField r.display_name, r.wallet, r.updated_at]

/-- The fixed CSV header row written by `export_csv`. -/
def csvHeader : List String :=
  ["tg_id", "username", "display_name", "wallet", "updated_at"]

/-- Model of `export_csv`: the rows written to the file — the header followed by
every stored row ordered by `updated_at` descending.  (CSV quoting of the
serialized line is not modelled; the artifact is kept at the level of the
row lists handed to `csv.writer`.) -/
def export_csv (db : List WalletRecord) : List (List String) :=
  csvHeader :: (orderByUpdatedAtDesc db).map rowToCsv

/-- Parse of the `ADMIN_IDS` environment variable: the guard
`if os.environ.get("ADMIN_IDS"):` treats an unset variable and the empty
string as falsy, leaving `ADMIN_IDS = set()`; otherwise the value is split
on commas and the non-blank stripped entries are read as integers.  (The
Python set is modelled as a list — only membership is ever used; an
unparsable entry, which would abort startup, is skipped.) -/
def parseAdminIds (env : Option String) : List Int :=
  match env with
  | none => []
  | some s =>
    if s = "" then []
    else (s.splitOn ",").filterMap (fun x =>
      if pyStrip x = "" then none else (pyStrip x).toInt?)

/-- Outcome of `export_cmd`: either the "Not authorized." denial or the
CSV rows of the exported file. -/
inductive ExportResult where
  | unauthorized : ExportResult
  | file : List (List String) → ExportResult
  deriving DecidableEq, Repr

/-- Model of `export_cmd`: requesters outside `ADMIN_IDS` get the denial and the
store is untouched; admins get the `export_csv` artifact.  The second
component is the store after the command, which the command never
mutates. -/
def export_cmd (admin_ids : List Int) (requester : Int) (db : List WalletRecord) :
    ExportResult × List WalletRecord :=
  if requester ∈ admin_ids then (ExportResult.file (export_csv db), db)
  else (ExportResult.unauthorized, db)

/-- Conversation state of the handler: `ConversationHandler.END` is
`Idle`, `ASKING_ADDRESS` is `AwaitingAddress`. -/
inductive ConvState where
  | Idle : ConvState
  | AwaitingAddress : ConvState
  deriving DecidableEq, Repr

/-- The fields of `update.effective_user` the handlers read.  `full_name`
is always a string in the transport library; `username` is nullable. -/
structure TgUser where
  id : Int
  username : Option String
  full_name : String
  deriving DecidableEq, Repr

/-- Result of one conversation turn: the replies sent, the store after the
turn, and the value the callback returns to the framework — `none` when the
handler raised.  A `ConversationHandler` adopts a returned state as the new
conversation state (and keeps the previous state on `none`); for a handler
registered outside the `ConversationHandler` the returned value is
discarded. -/
structure TurnResult where
  replies : List String
  db : List WalletRecord
  next : Option ConvState
  deriving DecidableEq, Repr

/-- The state the framework keeps after a turn: the returned one, or the
prior state when the handler raised. -/
def resolveState (prior : ConvState) : Option ConvState → ConvState
  | some s => s
  | none => prior

/-- Whether the `set_wallet` call inside a turn commits or raises a
storage error (`sqlite3` failure). -/
inductive WriteOutcome where
  | ok : WriteOutcome
  | storageError : WriteOutcome
  deriving DecidableEq, Repr

/-- Model of `whitelist_entry` (the register trigger, reached from `/whitelist` and
from the `!whitelist` text shortcut): a user with a truthy stored wallet
is told to use `/editwallet` and the conversation ends; otherwise the user
is prompted for an address.  (Python `if current:` is falsy for both
`None` and the empty string.) -/
def whitelist_entry (db : List WalletRecord) (user : TgUser) : TurnResult :=
  match (get_wallet db user.id).1 with
  | some current =>
    if current = "" then
      { replies := ["Send your Solana wallet address (base58, 32–44 chars):"],
        db := db, next := some ConvState.AwaitingAddress }
    else
      { replies := ["You already have a wallet: `" ++ current ++ "`. Use /editwallet to change it."],
        db := db, next := some ConvState.Idle }
  | none =>
    { replies := ["Send your Solana wallet address (base58, 32–44 chars):"],
      db := db, next := some ConvState.AwaitingAddress }

/-- Model of `receive_address` (text input in `ASKING_ADDRESS`): the message text is
stripped; an invalid address is rejected with a re-prompt; a valid one is
written through `set_wallet` and confirmed.  A storage error escapes the
handler before the confirmation is sent: no reply is produced, the store
keeps its prior contents and the framework keeps the prior state. -/
def receive_address (db : List WalletRecord) (user : TgUser) (text : String) (now : String)
    (write : WriteOutcome) : TurnResult :=
  let text := pyStrip text
  if !(is_valid_wallet text) then
    { replies := ["❌ Invalid Solana address. Must be 32–44 base58 characters. Try again or /cancel."],
      db := db, next := some ConvState.AwaitingAddress }
  else
    match write with
    | WriteOutcome.ok =>
      { replies := ["✅ Added to whitelist!"],
        db := set_wallet db user.id user.username (some user.full_name) text now,
        next := some ConvState.Idle }
    | WriteOutcome.storageError =>
      { replies := [], db := db, next := none }

/-- Python string interpolation of an optional value: `None` prints as the
literal text `None`. -/
def pyFormatOptStr : Option String → String
  | none => "None"
  | some s => s

/-- Model of the `editwallet` callback: show the current value (interpolated
even when absent) and return `ASKING_ADDRESS`.  The callback is registered as
a plain `CommandHandler` outside the `ConversationHandler`, so this return
value is discarded by the framework — see `sessionAfterEditwallet`. -/
def editwallet (db : List WalletRecord) (user : TgUser) : TurnResult :=
  { replies := ["Current: `" ++ pyFormatOptStr (get_wallet db user.id).1 ++
      "`\nSend new Solana address or /cancel."],
    db := db, next := some ConvState.AwaitingAddress }

/-- The conversation state after an `/editwallet` turn.  `editwallet` is not
an entry point, state handler or fallback of the `ConversationHandler`
(it is added separately as `CommandHandler("editwallet", editwallet)`), so
only a plain handler runs: its returned `ASKING_ADDRESS` is ignored and the
per-user session keeps whatever state it had before the turn. -/
def sessionAfterEditwallet (prior : ConvState) (_ : TurnResult) : ConvState :=
  prior

/-- A character the specification admits: a digit other than `0`, an
uppercase letter other than `I` and `O`, or a lowercase letter other than
`l`. -/
def specAllowedChar (c : Char) : Bool :=
  (c.isDigit && !(c == '0')) ||
  (c.isUpper && !(c == 'I') && !(c == 'O')) ||
  (c.isLower && !(c == 'l'))

/-- The validator contract as the specification words it: the trimmed
string is, in full, drawn from the base-58 alphabet and has length between
32 and 44. -/
def specValidWallet (s : String) : Prop :=
  32 ≤ (stripList s.data).length ∧ (stripList s.data).length ≤ 44 ∧
    ∀ c ∈ stripList s.data, specAllowedChar c = true

/-- The PRIMARY KEY invariant of the `whitelist` table: no two rows share
a `tg_id`. -/
def distinctKeys (db : List WalletRecord) : Prop :=
  db.Pairwise (fun a b => a.tg_id ≠ b.tg_id)

/-! ### Helper lemmas -/

theorem isBase58Char_eq_specAllowedChar (c : Char) : isBase58Char c = specAllowedChar c := by
  rw [Bool.eq_iff_iff]
  simp only [isBase58Char, specAllowedChar, Char.isDigit, Char.isUpper, Char.isLower,
    Char.le_def, UInt32.le_def, BitVec.le_def, Bool.or_eq_true, Bool.and_eq_true,
    decide_eq_true_eq, Bool.not_eq_true', beq_eq_false_iff_ne, ne_eq, Char.ext_iff,
    UInt32.ext_iff, BitVec.toNat_eq]
  have e1 : ('1' : Char).val.toBitVec.toNat = 49 := rfl
  have e2 : ('9' : Char).val.toBitVec.toNat = 57 := rfl
  have e3 : ('A' : Char).val.toBitVec.toNat = 65 := rfl
  have e4 : ('H' : Char).val.toBitVec.toNat = 72 := rfl
  have e5 : ('J' : Char).val.toBitVec.toNat = 74 := rfl
  have e6 : ('N' : Char).val.toBitVec.toNat = 78 := rfl
  have e7 : ('P' : Char).val.toBitVec.toNat = 80 := rfl
  have e8 : ('Z' : Char).val.toBitVec.toNat = 90 := rfl
  have e9 : ('a' : Char).val.toBitVec.toNat = 97 := rfl
  have e10 : ('k' : Char).val.toBitVec.toNat = 107 := rfl
  have e11 : ('m' : Char).val.toBitVec.toNat = 109 := rfl
  have e12 : ('z' : Char).val.toBitVec.toNat = 122 := rfl
  have e13 : ('0' : Char).val.toBitVec.toNat = 48 := rfl
  have e14 : ('I' : Char).val.toBitVec.toNat = 73 := rfl
  have e15 : ('O' : Char).val.toBitVec.toNat = 79 := rfl
  have e16 : ('l' : Char).val.toBitVec.toNat = 108 := rfl
  have f1 : (UInt32.toBitVec 48).toNat = 48 := rfl
  have f2 : (UInt32.toBitVec 57).toNat = 57 := rfl
  have f3 : (UInt32.toBitVec 65).toNat = 65 := rfl
  have f4 : (UInt32.toBitVec 90).toNat = 90 := rfl
  have f5 : (UInt32.toBitVec 97).toNat = 97 := rfl
  have f6 : (UInt32.toBitVec 122).toNat = 122 := rfl
  have g0 : c.val.toNat = c.val.toBitVec.toNat := rfl
  have g1 : ('0' : Char).val.toNat = 48 := rfl
  have g2 : ('I' : Char).val.toNat = 73 := rfl
  have g3 : ('O' : Char).val.toNat = 79 := rfl
  have g4 : ('l' : Char).val.toNat = 108 := rfl
  omega

theorem pyIsSpace_eq_false_of_isBase58Char {c : Char} (h : isBase58Char c = true) :
    pyIsSpace c = false := by
  cases hsp : pyIsSpace c with
  | false => rfl
  | true =>
    exfalso
    simp only [pyIsSpace, Bool.or_eq_true, beq_iff_eq, or_assoc] at hsp
    rcases hsp with rfl|rfl|rfl|rfl|rfl|rfl|rfl|rfl|rfl|rfl|rfl|rfl|rfl|rfl|
      rfl|rfl|rfl|rfl|rfl|rfl|rfl|rfl|rfl|rfl|rfl|rfl|rfl|rfl|rfl <;>
      exact absurd h (by decide)

theorem dropWhile_eq_self_of {p : Char → Bool} :
    ∀ {l : List Char}, (∀ c ∈ l, p c = false) → l.dropWhile p = l
  | [], _ => rfl
  | x :: xs, h => by
    rw [List.dropWhile_cons]
    simp [h x (List.mem_cons_self x xs)]

theorem stripList_eq_self {l : List Char} (h : ∀ c ∈ l, pyIsSpace c = false) :
    stripList l = l := by
  rw [stripList, dropWhile_eq_self_of h,
    dropWhile_eq_self_of (fun c hc => h c (List.mem_reverse.mp hc)), List.reverse_reverse]

theorem mem_dropWhile_of {p : Char → Bool} {c : Char} :
    ∀ {l : List Char}, c ∈ l → p c = false → c ∈ l.dropWhile p
  | [], hc, _ => absurd hc (List.not_mem_nil c)
  | x :: xs, hc, hpc => by
    rw [List.dropWhile_cons]
    by_cases hx : p x = true
    · simp only [hx, if_true]
      rcases List.mem_cons.mp hc with rfl | hmem
      · exact absurd hx (by simp [hpc])
      · exact mem_dropWhile_of hmem hpc
    · simp only [Bool.not_eq_true] at hx
      simp [hx, hc]

theorem mem_stripList {l : List Char} {c : Char} (hc : c ∈ l) (hpc : pyIsSpace c = false) :
    c ∈ stripList l := by
  rw [stripList, List.mem_reverse]
  exact mem_dropWhile_of (List.mem_reverse.mpr (mem_dropWhile_of hc hpc)) hpc

theorem length_dropWhile_le_self {p : Char → Bool} :
    ∀ (l : List Char), (l.dropWhile p).length ≤ l.length
  | [] => le_refl _
  | x :: xs => by
    rw [List.dropWhile_cons]
    by_cases hx : p x = true
    · simp only [hx, if_true]
      exact le_trans (length_dropWhile_le_self xs) (Nat.le_succ _)
    · simp [hx]

theorem length_stripList_le (l : List Char) : (stripList l).length ≤ l.length := by
  rw [stripList, List.length_reverse]
  calc ((l.dropWhile pyIsSpace).reverse.dropWhile pyIsSpace).length
      ≤ (l.dropWhile pyIsSpace).reverse.length := length_dropWhile_le_self _
    _ = (l.dropWhile pyIsSpace).length := List.length_reverse _
    _ ≤ l.length := length_dropWhile_le_self _

theorem set_wallet_find_aux (u : Int) (un dn : Option String) (w t : String) :
    ∀ (db : List WalletRecord), db.any (fun r => r.tg_id == u) = true →
      (db.map (fun r =>
        if r.tg_id == u then
          ({ tg_id := r.tg_id, username := un, display_name := dn,
             wallet := w, updated_at := t } : WalletRecord)
        else r)).find? (fun r => r.tg_id == u) =
        some { tg_id := u, username := un, display_name := dn, wallet := w, updated_at := t }
  | [], h => by simp at h
  | x :: xs, h => by
    rw [List.map_cons]
    cases hx : (x.tg_id == u) with
    | true =>
      have hxid : x.tg_id = u := by simpa using hx
      rw [List.find?_cons_of_pos]
      · simp [hx, hxid]
      · simp [hx, hxid]
    | false =>
      have hxs : xs.any (fun r => r.tg_id == u) = true := by
        simpa [hx] using h
      rw [List.find?_cons_of_neg]
      · exact set_wallet_find_aux u un dn w t xs hxs
      · simp [hx]

theorem find?_set_wallet (db : List WalletRecord) (u : Int) (un dn : Option String)
    (w t : String) :
    (set_wallet db u un dn w t).find? (fun r => r.tg_id == u) =
      some { tg_id := u, username := un, display_name := dn, wallet := w, updated_at := t } := by
  rw [set_wallet]
  by_cases h : db.any (fun r => r.tg_id == u) = true
  · rw [if_pos h]
    exact set_wallet_find_aux u un dn w t db h
  · rw [if_neg h]
    have hnone : db.find? (fun r => r.tg_id == u) = none :=
      List.find?_eq_none.mpr (List.any_eq_false.mp (Bool.eq_false_iff.mpr h))
    simp [List.find?_append, hnone]

theorem set_wallet_filter_aux (u : Int) (un dn : Option String) (w t : String) :
    ∀ (db : List WalletRecord), db.Pairwise (fun a b => a.tg_id ≠ b.tg_id) →
      db.any (fun r => r.tg_id == u) = true →
      (db.map (fun r =>
        if r.tg_id == u then
          ({ tg_id := r.tg_id, username := un, display_name := dn,
             wallet := w, updated_at := t } : WalletRecord)
        else r)).filter (fun r => r.tg_id == u) =
        [{ tg_id := u, username := un, display_name := dn, wallet := w, updated_at := t }]
  | [], _, h => by simp at h
  | x :: xs, hp, h => by
    obtain ⟨hhead, htail⟩ := List.pairwise_cons.mp hp
    rw [List.map_cons, List.filter_cons]
    cases hx : (x.tg_id == u) with
    | true =>
      have hxid : x.tg_id = u := by simpa using hx
      have hrest : (xs.map (fun r =>
          if r.tg_id == u then
            ({ tg_id := r.tg_id, username := un, display_name := dn,
               wallet := w, updated_at := t } : WalletRecord)
          else r)).filter (fun r => r.tg_id == u) = [] := by
        rw [List.filter_eq_nil_iff]
        intro a ha
        obtain ⟨b, hb, rfl⟩ := List.mem_map.mp ha
        have hbne : (b.tg_id == u) = false := by
          simpa using fun hbu => hhead b hb (by rw [hxid, hbu])
        simp [hbne]
      simp only [hx, hxid, hrest, if_true]
      simp only [List.filter_cons] at *
      simp [hrest]
    | false =>
      have hxs : xs.any (fun r => r.tg_id == u) = true := by
        simpa [hx] using h
      simpa [hx] using set_wallet_filter_aux u un dn w t xs htail hxs

theorem filter_set_wallet (db : List WalletRecord) (u : Int) (un dn : Option String)
    (w t : String) (h : distinctKeys db) :
    (set_wallet db u un dn w t).filter (fun r => r.tg_id == u) =
      [{ tg_id := u, username := un, display_name := dn, wallet := w, updated_at := t }] := by
  rw [set_wallet]
  by_cases hany : db.any (fun r => r.tg_id == u) = true
  · rw [if_pos hany]
    exact set_wallet_filter_aux u un dn w t db h hany
  · rw [if_neg hany]
    rw [List.filter_append]
    have hnil : db.filter (fun r => r.tg_id == u) = [] :=
      List.filter_eq_nil_iff.mpr (List.any_eq_false.mp (Bool.eq_false_iff.mpr hany))
    simp [hnil]

theorem distinctKeys_set_wallet (db : List WalletRecord) (u : Int) (un dn : Option String)
    (w t : String) (h : distinctKeys db) :
    distinctKeys (set_wallet db u un dn w t) := by
  rw [set_wallet]
  by_cases hany : db.any (fun r => r.tg_id == u) = true
  · rw [if_pos hany]
    rw [distinctKeys, List.pairwise_map]
    have htg : ∀ r : WalletRecord,
        (if r.tg_id == u then
          ({ tg_id := r.tg_id, username := un, display_name := dn,
             wallet := w, updated_at := t } : WalletRecord)
         else r).tg_id = r.tg_id := by
      intro r
      by_cases hr : (r.tg_id == u) = true <;> simp [hr]
    exact h.imp (fun hab => by rw [htg, htg]; exact hab)
  · rw [if_neg hany]
    rw [distinctKeys, List.pairwise_append]
    refine ⟨h, List.pairwise_singleton _ _, ?_⟩
    intro a ha b hb
    rw [List.mem_singleton] at hb
    subst hb
    simpa using List.any_eq_false.mp (Bool.eq_false_iff.mpr hany) a ha

/-! ### Claims -/

/-- Claim C1: for every string `s`, `is_valid_wallet s` returns true exactly when
the whitespace-trimmed form of `s` is, as a full-string match, drawn from the
base-58 alphabet (digits 1 to 9, uppercase letters without I and O, lowercase
letters without l) and has length between 32 and 44 inclusive. -/
theorem c1_is_valid_wallet_iff_spec (s : String) :
    is_valid_wallet s = true ↔ specValidWallet s := by
  have hfun : isBase58Char = specAllowedChar := funext isBase58Char_eq_specAllowedChar
  rw [is_valid_wallet, specValidWallet]
  simp only [hfun, Bool.and_eq_true, decide_eq_true_eq, List.all_eq_true, and_assoc]

/-- Claim C2: along every path of `receive_address`, either the store is left
unchanged, or the stored string is the trimmed submission and `is_valid_wallet`
accepted it in the same turn. -/
theorem c2_receive_address_writes_only_validated (db : List WalletRecord) (user : TgUser)
    (text now : String) (write : WriteOutcome) :
    (receive_address db user text now write).db = db ∨
      (is_valid_wallet (pyStrip text) = true ∧
        (receive_address db user text now write).db =
          set_wallet db user.id user.username (some user.full_name) (pyStrip text) now) := by
  by_cases h : is_valid_wallet (pyStrip text) = true
  · cases write with
    | ok => exact Or.inr ⟨h, by simp [receive_address, h]⟩
    | storageError => exact Or.inl (by simp [receive_address, h])
  · exact Or.inl (by simp [receive_address, Bool.eq_false_iff.mpr h])

/-- Claim C3: upserting the same user with the same address twice leaves exactly
one stored record for that user, and it carries the timestamp of the later
(second) write. -/
theorem c3_set_wallet_idempotent (db : List WalletRecord) (u : Int) (un dn : Option String)
    (w t1 t2 : String) (h : distinctKeys db) :
    (set_wallet (set_wallet db u un dn w t1) u un dn w t2).filter (fun r => r.tg_id == u) =
      [{ tg_id := u, username := un, display_name := dn, wallet := w, updated_at := t2 }] :=
  filter_set_wallet _ u un dn w t2 (distinctKeys_set_wallet db u un dn w t1 h)

/-- Witness for C3 at a concrete store. -/
theorem c3_set_wallet_idempotent_witness :
    (set_wallet (set_wallet [] 1 none none "w" "a") 1 none none "w" "b").filter
        (fun r => r.tg_id == 1) =
      [{ tg_id := 1, username := none, display_name := none, wallet := "w", updated_at := "b" }] :=
  c3_set_wallet_idempotent [] 1 none none "w" "a" "b" List.Pairwise.nil

/-- Claim C4: a requester outside the administrator set gets the unauthorized
denial and the store is untouched; an administrator gets the snapshot with the
exact five-column header, one row per stored record, ordered by updated_at
descending, again without mutating the store. -/
theorem c4_export_cmd_auth_and_order (admin_ids : List Int) (req : Int)
    (db : List WalletRecord) :
    (req ∉ admin_ids → export_cmd admin_ids req db = (ExportResult.unauthorized, db)) ∧
    (req ∈ admin_ids →
      export_cmd admin_ids req db =
        (ExportResult.file (csvHeader :: (orderByUpdatedAtDesc db).map rowToCsv), db) ∧
      csvHeader = ["tg_id", "username", "display_name", "wallet", "updated_at"] ∧
      (orderByUpdatedAtDesc db).Perm db ∧
      List.Sorted updatedDesc (orderByUpdatedAtDesc db)) := by
  constructor
  · intro h
    simp [export_cmd, h]
  · intro h
    exact ⟨by simp [export_cmd, export_csv, h], rfl,
      List.perm_insertionSort updatedDesc db, List.sorted_insertionSort updatedDesc db⟩

/-- Witness for C4: a non-admin is denied, an admin receives the header-only
snapshot of the empty store. -/
theorem c4_export_cmd_witness :
    export_cmd [5] 7 [] = (ExportResult.unauthorized, []) ∧
    export_cmd [5] 5 [] = (ExportResult.file [csvHeader], []) :=
  ⟨(c4_export_cmd_auth_and_order [5] 7 []).1 (by decide),
   ((c4_export_cmd_auth_and_order [5] 5 []).2 (by decide)).1⟩

/-- Counterexample to C5 as stated: when the store write fails on a valid
submission, the handler raises before any reply is produced, so the user is
NOT informed that an error occurred (no reply at all is sent), although the
session does remain in `AwaitingAddress`. -/
theorem c5_storage_error_counterexample :
    is_valid_wallet "11111111111111111111111111111111" = true ∧
    (receive_address [] { id := 7, username := none, full_name := "A" }
        "11111111111111111111111111111111" "2024-01-01T00:00:00"
        WriteOutcome.storageError).replies = [] ∧
    resolveState ConvState.AwaitingAddress
      (receive_address [] { id := 7, username := none, full_name := "A" }
        "11111111111111111111111111111111" "2024-01-01T00:00:00"
        WriteOutcome.storageError).next = ConvState.AwaitingAddress := by
  refine ⟨by decide, by decide, by decide⟩

/-- Claim C5 (amended): if the store write fails during an `AwaitingAddress`
text submission, the conversation turn fails with no reply sent to the user
(the code does not inform the user of the error), the store keeps its prior
contents, and the session remains in `AwaitingAddress` rather than
transitioning to `Idle` as if the write succeeded. -/
theorem c5_storage_error_keeps_state (db : List WalletRecord) (user : TgUser)
    (text now : String) (h : is_valid_wallet (pyStrip text) = true) :
    (receive_address db user text now WriteOutcome.storageError).replies = [] ∧
    (receive_address db user text now WriteOutcome.storageError).db = db ∧
    resolveState ConvState.AwaitingAddress
      (receive_address db user text now WriteOutcome.storageError).next =
      ConvState.AwaitingAddress := by
  refine ⟨?_, ?_, ?_⟩ <;> simp [receive_address, h, resolveState]

/-- Witness for the amended C5 at a concrete valid submission. -/
theorem c5_storage_error_witness :
    is_valid_wallet (pyStrip "22222222222222222222222222222222") = true ∧
    ((receive_address [] { id := 9, username := none, full_name := "B" }
        "22222222222222222222222222222222" "t0" WriteOutcome.storageError).replies = [] ∧
      (receive_address [] { id := 9, username := none, full_name := "B" }
        "22222222222222222222222222222222" "t0" WriteOutcome.storageError).db = [] ∧
      resolveState ConvState.AwaitingAddress
        (receive_address [] { id := 9, username := none, full_name := "B" }
          "22222222222222222222222222222222" "t0" WriteOutcome.storageError).next =
        ConvState.AwaitingAddress) :=
  ⟨by decide, c5_storage_error_keeps_state []
    { id := 9, username := none, full_name := "B" }
    "22222222222222222222222222222222" "t0" (by decide)⟩

/-- Claim C6: a register trigger from a user who already has a stored (and, by
the data-model invariant, validated) record replies that the user is already
registered and should use the edit command, performs no store write, and ends
the conversation (state `Idle`). -/
theorem c6_whitelist_entry_already_registered (db : List WalletRecord) (user : TgUser)
    (w : String) (h1 : (get_wallet db user.id).1 = some w)
    (h2 : is_valid_wallet w = true) :
    whitelist_entry db user =
      { replies := ["You already have a wallet: `" ++ w ++ "`. Use /editwallet to change it."],
        db := db, next := some ConvState.Idle } := by
  have hne : w ≠ "" := by
    rintro rfl
    exact absurd h2 (by decide)
  simp [whitelist_entry, h1, hne]

/-- Witness for C6 at a concrete one-record store. -/
theorem c6_whitelist_entry_witness :
    (get_wallet [⟨1, none, none, "11111111111111111111111111111111", "t"⟩] (1 : Int)).1 =
      some "11111111111111111111111111111111" ∧
    is_valid_wallet "11111111111111111111111111111111" = true ∧
    whitelist_entry [⟨1, none, none, "11111111111111111111111111111111", "t"⟩]
      ⟨1, none, "A"⟩ =
      ⟨["You already have a wallet: `11111111111111111111111111111111`. Use /editwallet to change it."],
        [⟨1, none, none, "11111111111111111111111111111111", "t"⟩], some ConvState.Idle⟩ :=
  ⟨by decide, by decide,
    c6_whitelist_entry_already_registered
      [⟨1, none, none, "11111111111111111111111111111111", "t"⟩] ⟨1, none, "A"⟩
      "11111111111111111111111111111111" (by decide) (by decide)⟩

/-- Counterexample to C7 as stated: a 45-character string (13 spaces followed
by 32 valid characters) has length greater than 44, yet `is_valid_wallet`
accepts it, because the validator trims whitespace before matching. -/
theorem c7_validator_counterexample :
    44 < ("             11111111111111111111111111111111" : String).length ∧
    is_valid_wallet "             11111111111111111111111111111111" = true :=
  ⟨by decide, by decide⟩

/-- Claim C7 (amended): every string of length 32 to 44 drawn from the base-58
alphabet is accepted; every string containing 0, O, I or l, or of length below
32, or whose whitespace-trimmed form is longer than 44 characters, is
rejected.  (The original length-above-44 clause must be read on the trimmed
string, since the validator strips whitespace first.) -/
theorem c7_validator_bounds (s : String) :
    (32 ≤ s.length ∧ s.length ≤ 44 ∧ (∀ c ∈ s.data, specAllowedChar c = true) →
      is_valid_wallet s = true) ∧
    ((∃ c ∈ s.data, c = '0' ∨ c = 'O' ∨ c = 'I' ∨ c = 'l') ∨ s.length < 32 ∨
        44 < (pyStrip s).length →
      is_valid_wallet s = false) := by
  constructor
  · rintro ⟨h1, h2, h3⟩
    have hnospace : ∀ c ∈ s.data, pyIsSpace c = false := fun c hc =>
      pyIsSpace_eq_false_of_isBase58Char
        (by rw [isBase58Char_eq_specAllowedChar]; exact h3 c hc)
    have hstrip : stripList s.data = s.data := stripList_eq_self hnospace
    have h1x : 32 ≤ s.data.length := h1
    have h2x : s.data.length ≤ 44 := h2
    rw [is_valid_wallet]
    simp only [hstrip, Bool.and_eq_true, decide_eq_true_eq, List.all_eq_true]
    refine ⟨⟨h1x, h2x⟩, ?_⟩
    intro c hc
    rw [isBase58Char_eq_specAllowedChar]
    exact h3 c hc
  · rintro (⟨c, hc, hforb⟩ | hlt | hgt)
    · have hcs : pyIsSpace c = false := by
        rcases hforb with rfl | rfl | rfl | rfl <;> decide
      have hcb : isBase58Char c = false := by
        rcases hforb with rfl | rfl | rfl | rfl <;> decide
      have hcmem : c ∈ stripList s.data := mem_stripList hc hcs
      cases hall : (stripList s.data).all isBase58Char with
      | false => simp [is_valid_wallet, hall]
      | true =>
        exact absurd (List.all_eq_true.mp hall c hcmem) (by simp [hcb])
    · have hx : ¬ 32 ≤ (stripList s.data).length :=
        Nat.not_le.mpr (lt_of_le_of_lt (length_stripList_le _) hlt)
      simp [is_valid_wallet, hx]
    · have hx : ¬ (stripList s.data).length ≤ 44 := Nat.not_le.mpr hgt
      simp [is_valid_wallet, hx]

/-- Witness for the amended C7: one accepted and one rejected concrete
string, both via the theorem. -/
theorem c7_validator_bounds_witness :
    (∀ c ∈ ("11111111111111111111111111111111" : String).data, specAllowedChar c = true) ∧
    is_valid_wallet "11111111111111111111111111111111" = true ∧
    ("0" : String).length < 32 ∧
    is_valid_wallet "0" = false :=
  ⟨by decide,
   (c7_validator_bounds "11111111111111111111111111111111").1 ⟨by decide, by decide, by decide⟩,
   by decide,
   (c7_validator_bounds "0").2 (Or.inr (Or.inl (by decide)))⟩

/-- Claim C8: the store itself validates nothing — for every string `w`,
valid or not, `set_wallet` stores it and a subsequent `get_wallet` for the
same user returns exactly `w` together with the write timestamp. -/
theorem c8_set_wallet_no_validation (db : List WalletRecord) (u : Int)
    (un dn : Option String) (w t : String) :
    get_wallet (set_wallet db u un dn w t) u = (some w, some t) := by
  rw [get_wallet, find?_set_wallet]

/-- Claim C9: with `ADMIN_IDS` unset or empty the administrator set is empty,
so `export_cmd` denies every requester and produces no export. -/
theorem c9_empty_admin_ids_denies_all (env : Option String) (req : Int)
    (db : List WalletRecord) (h : env = none ∨ env = some "") :
    parseAdminIds env = [] ∧
    export_cmd (parseAdminIds env) req db = (ExportResult.unauthorized, db) := by
  have hp : parseAdminIds env = [] := by
    rcases h with rfl | rfl
    · rfl
    · simp [parseAdminIds]
  exact ⟨hp, by simp [export_cmd, hp]⟩

/-- Witness for C9 with the variable unset. -/
theorem c9_empty_admin_ids_witness :
    ((none : Option String) = none ∨ (none : Option String) = some "") ∧
    (parseAdminIds none = [] ∧
      export_cmd (parseAdminIds none) 42 [] = (ExportResult.unauthorized, [])) :=
  ⟨Or.inl rfl, c9_empty_admin_ids_denies_all none 42 [] (Or.inl rfl)⟩

/-- Counterexample to C10 as stated: `editwallet` is registered as a plain
`CommandHandler` outside the `ConversationHandler`, so although the callback
returns `ASKING_ADDRESS`, the framework discards that value — after an
`/editwallet` turn from an idle user with no stored record the session is
still `Idle`, not `AwaitingAddress`. -/
theorem c10_editwallet_counterexample :
    (get_wallet [] ((3 : Int))).1 = none ∧
    (editwallet [] ⟨3, none, "B"⟩).next = some ConvState.AwaitingAddress ∧
    sessionAfterEditwallet ConvState.Idle (editwallet [] ⟨3, none, "B"⟩) ≠
      ConvState.AwaitingAddress :=
  ⟨rfl, rfl, by decide⟩

/-- Claim C10 (amended): the edit trigger for a user with no stored record
interpolates the absent value literally — the prompt reads Current: backtick
None backtick — rather than issuing a dedicated no-record message, and it
leaves the store untouched; the callback returns `ASKING_ADDRESS`, but since
it is registered outside the `ConversationHandler` that return is discarded,
so the session keeps its prior state and does not enter `AwaitingAddress`. -/
theorem c10_editwallet_no_record (db : List WalletRecord) (user : TgUser)
    (prior : ConvState) (h : (get_wallet db user.id).1 = none) :
    editwallet db user =
      ⟨["Current: `None`\nSend new Solana address or /cancel."], db,
        some ConvState.AwaitingAddress⟩ ∧
    sessionAfterEditwallet prior (editwallet db user) = prior := by
  refine ⟨?_, rfl⟩
  simp only [editwallet, h, pyFormatOptStr]
  rfl

/-- Witness for the amended C10 on the empty store, from the `Idle` state. -/
theorem c10_editwallet_no_record_witness :
    (get_wallet [] ((3 : Int))).1 = none ∧
    (editwallet [] ⟨3, none, "B"⟩ =
      ⟨["Current: `None`\nSend new Solana address or /cancel."], [],
        some ConvState.AwaitingAddress⟩ ∧
      sessionAfterEditwallet ConvState.Idle (editwallet [] ⟨3, none, "B"⟩) =
        ConvState.Idle) :=
  ⟨rfl, c10_editwallet_no_record [] ⟨3, none, "B"⟩ ConvState.Idle rfl⟩
